import Mathlib

/-!
Shallow embedding of the gorefer identity & referral subsystem.

The Go sources embedded here are, in order:
* `pkg/auth/auth.go` — password hashing (`HashPassword`, `CheckPasswordHash`)
  and the `LoginHandler` HTTP handler;
* `pkg/auth/jwt.go` — session tokens (`GenerateToken`, `ValidateToken`);
* `pkg/storage/storage.go` — the store operations (`CreateUser`,
  `GetUserByEmail`, `CreateReferralCode`, `DeleteReferralCode`,
  `GetReferralsByReferrerID`, `RegisterWithReferralCode`);
* `pkg/api/api.go` — the `loginUser` and `registerWithReferralCode` handlers.

Where a Go file contains two concatenated revisions, the second
(context-taking) revision is the one embedded; the cancellation context is
not modelled as data.  Database statements are modelled as individually
committed updates on an explicit `Store` value, exactly mirroring the
sequential statement-by-statement execution of the Go code; SQL uniqueness
constraints from `schema.sql` (unique user email, globally unique code
string) are modelled as explicit checks that fail the corresponding insert.
Where the store left by a multi-statement operation depends on a
statement's transport outcome under the caller-supplied context (§5), that
outcome is an explicit Boolean input (`RegisterWithReferralCodeRun`).
-/

namespace GoRefer

/-! ### Credential hasher (bcrypt), modelled from the spec -/

/-- Result of a bcrypt comparison: `ok` (nil error), `mismatch`
(`bcrypt.ErrMismatchedHashAndPassword`), or `malformed` (any decode error on
the digest). -/
inductive BcryptResult where
  | ok
  | mismatch
  | malformed
deriving DecidableEq, Repr

/-- Modelled from the spec: the bcrypt implementation
(`golang.org/x/crypto/bcrypt`) is outside this repository.  Per §4.1 a digest
embeds a per-call random salt together with a keyed one-way digest of the
plaintext.  The salt is made an explicit parameter (the randomness made
explicit), rendered in unary inside the digest string; the keyed digest body
is modelled as the plaintext itself — injectivity in the plaintext is what
the verification claims rely on, one-wayness is not modelled. -/
def HashPassword (salt : Nat) (password : String) : String :=
  ⟨'$' :: '2' :: 'a' :: '$' :: (List.replicate salt 'A' ++ '$' :: password.data)⟩

/-- Modelled from the spec: decoding of a bcrypt digest string back into its
salt and digest body; `none` when the string is not a well-formed digest. -/
def parseDigest (digest : String) : Option (Nat × String) :=
  match digest.data with
  | '$' :: '2' :: 'a' :: '$' :: rest =>
    match rest.dropWhile (· == 'A') with
    | '$' :: body => some ((rest.takeWhile (· == 'A')).length, ⟨body⟩)
    | _ => none
  | _ => none

/-- Modelled from the spec: `bcrypt.CompareHashAndPassword` decodes the
digest (failing with a malformed-digest error), recomputes the keyed digest
of the supplied plaintext under the embedded salt and compares. -/
def CheckPasswordHash (password hash : String) : BcryptResult :=
  match parseDigest hash with
  | none => .malformed
  | some (_, body) => if password == body then .ok else .mismatch

/-! ### Session tokens (`pkg/auth/jwt.go`) -/

/-- Signing algorithm declared in a token header.  `HS256` is the only
HMAC-family method the model needs; `RS256` stands for any non-HMAC method,
which the key function in `ValidateToken` rejects. -/
inductive JwtAlg where
  | HS256
  | RS256
deriving DecidableEq, Repr

/-- The claims of `jwt.go`: `CustomClaims` = user id, username, plus the
standard claims set by `GenerateToken` (`ExpiresAt`, `IssuedAt`, `Subject`),
all times as Unix seconds. -/
structure CustomClaims where
  userID : Nat
  username : String
  expiresAt : Int
  issuedAt : Int
  subject : String
deriving DecidableEq, Repr

/-- Modelled from the spec: the JWT library (`dgrijalva/jwt-go`) is outside
this repository; §4.2 requires a symmetric MAC over the full serialized
claim.  The MAC is modelled as an ideal (injective) keyed tag: a value
determined by, and only equal for, the same key, algorithm and claims. -/
structure MacTag where
  key : String
  alg : JwtAlg
  payload : CustomClaims
deriving DecidableEq, Repr

/-- Modelled from the spec: signing produces the ideal MAC tag. -/
def hmacSign (key : String) (alg : JwtAlg) (payload : CustomClaims) : MacTag :=
  ⟨key, alg, payload⟩

/-- A signed token: declared algorithm, claims, signature.  Serialization to
a compact string is not modelled. -/
structure Token where
  alg : JwtAlg
  claims : CustomClaims
  sig : MacTag
deriving DecidableEq, Repr

/-- Token-validation failures of `ValidateToken`, distinguishable
internally: the key function rejecting a non-HMAC method, an invalid
signature, and the expiry check. -/
inductive TokenError where
  | badMethod
  | invalidSignature
  | expired
deriving DecidableEq, Repr

/-- Embeds `GenerateToken` (jwt.go): claims with `ExpiresAt = now + 24h`,
`IssuedAt = now`, `Subject = username`, signed with HS256 under the
process-wide secret.  `time.Now()` is passed explicitly as `now` (Unix
seconds). -/
def GenerateToken (secret : String) (now : Int) (userID : Nat) (username : String) : Token :=
  let claims : CustomClaims :=
    { userID := userID
      username := username
      expiresAt := now + 24 * 3600
      issuedAt := now
      subject := username }
  { alg := .HS256, claims := claims, sig := hmacSign secret .HS256 claims }

/-- Embeds `ValidateToken` (jwt.go): the key function rejects any non-HMAC
signing method, parsing verifies the signature against the shared secret,
and the remaining explicit check rejects when `claims.ExpiresAt <
time.Now().Unix()`.  The underlying library parse is modelled (from the
spec) as algorithm and signature verification. -/
def ValidateToken (secret : String) (tok : Token) (now : Int) : Except TokenError String :=
  if tok.alg ≠ .HS256 then .error .badMethod
  else if tok.sig ≠ hmacSign secret tok.alg tok.claims then .error .invalidSignature
  else if tok.claims.expiresAt < now then .error .expired
  else .ok tok.claims.username

/-! ### The store (`pkg/storage/storage.go`, `schema.sql`) -/

/-- The `User` model of storage.go: id, username, email, password (the
stored password column — whatever string the caller supplied).  Defaults are
Go zero values. -/
structure User where
  id : Nat := 0
  username : String := ""
  email : String := ""
  password : String := ""
deriving DecidableEq, Repr

/-- The `ReferralCode` model of storage.go; `expiresAt` as Unix seconds. -/
structure ReferralCode where
  id : Nat
  userID : Nat
  code : String
  expiresAt : Int
deriving DecidableEq, Repr

/-- A row of the `referral_links` table (schema.sql): referrer and referee
account ids. -/
structure ReferralLink where
  id : Nat
  referrerID : Nat
  refereeID : Nat
deriving DecidableEq, Repr

/-- Database state: the three tables of schema.sql plus the `SERIAL`
sequence counters that assign fresh primary keys. -/
structure Store where
  users : List User
  codes : List ReferralCode
  links : List ReferralLink
  nextUserID : Nat
  nextCodeID : Nat
  nextLinkID : Nat
deriving DecidableEq, Repr

/-- Database errors visible to the embedded code: `noRows` is
`pgx.ErrNoRows` (a `QueryRow().Scan` with an empty result), `uniqueViolation`
a violated unique constraint of schema.sql, and `contextDeadlineExceeded` a
statement aborted by the caller-supplied context (§5: every store statement
is bounded by the handler's 5-second timeout and can fail on transport or
cancellation independently of the statements already committed). -/
inductive DBError where
  | noRows
  | uniqueViolation (constraint : String)
  | contextDeadlineExceeded
deriving DecidableEq, Repr

/-- The `err.Error()` text the handlers interpolate into HTTP responses.
The exact driver wording is external to the repository; what matters below
is only that it is the driver's text, not one of the handlers' fixed
messages. -/
def DBError.message : DBError → String
  | .noRows => "no rows in result set"
  | .uniqueViolation c => "duplicate key value violates unique constraint " ++ c
  | .contextDeadlineExceeded => "context deadline exceeded"

/-- Embeds `(*DB).CreateUser`: `INSERT INTO users (username, email,
password) VALUES ($1,$2,$3) RETURNING id`.  The insert fails on the unique
email constraint of schema.sql; on success the row is stored with a fresh
serial id, which is returned. -/
def CreateUser (db : Store) (user : User) : Except DBError (Nat × Store) :=
  if db.users.any (fun u => u.email == user.email) then
    .error (.uniqueViolation "users_email_key")
  else
    .ok (db.nextUserID,
      { db with
        users := db.users ++ [{ user with id := db.nextUserID }]
        nextUserID := db.nextUserID + 1 })

/-- Embeds `(*DB).GetUserByEmail`: `SELECT id, username, email, password
FROM users WHERE email = $1`, `pgx.ErrNoRows` when absent. -/
def GetUserByEmail (db : Store) (email : String) : Except DBError User :=
  match db.users.find? (fun u => u.email == email) with
  | some u => .ok u
  | none => .error .noRows

/-- Embeds `(*DB).DeleteReferralCode`: `DELETE FROM referral_codes WHERE
user_id = $1`.  Deleting zero rows is not an error; only transport failures
(not modelled) can fail this statement. -/
def DeleteReferralCode (db : Store) (userID : Nat) : Store :=
  { db with codes := db.codes.filter (fun rc => rc.userID != userID) }

/-- Embeds `(*DB).CreateReferralCode`: first `DeleteReferralCode` for the
owner (committed on its own — the Go code issues two independent
statements), then `INSERT INTO referral_codes (user_id, code, expires_at)`,
which fails on the globally unique code constraint of schema.sql; in that
case the already-committed delete remains. -/
def CreateReferralCode (db : Store) (userID : Nat) (code : String) (expiresAt : Int) :
    Option DBError × Store :=
  if (DeleteReferralCode db userID).codes.any (fun rc => rc.code == code) then
    (some (.uniqueViolation "referral_codes_code_key"), DeleteReferralCode db userID)
  else
    (none,
      { DeleteReferralCode db userID with
        codes := (DeleteReferralCode db userID).codes ++
          [⟨(DeleteReferralCode db userID).nextCodeID, userID, code, expiresAt⟩]
        nextCodeID := (DeleteReferralCode db userID).nextCodeID + 1 })

/-- Embeds `(*DB).GetReferralsByReferrerID`: `SELECT u.id, u.username,
u.email FROM referral_links rl JOIN users u ON rl.referee_id = u.id WHERE
rl.referrer_id = $1`; each row is scanned into only the id, username and
email fields of a fresh `User`, the password field keeping its zero
value. -/
def GetReferralsByReferrerID (db : Store) (referrerID : Nat) : List User :=
  (db.links.filter (fun l => l.referrerID == referrerID)).flatMap (fun l =>
    (db.users.filter (fun u => u.id == l.refereeID)).map (fun u =>
      { id := u.id, username := u.username, email := u.email, password := "" }))

/-- Embeds the first query of `(*DB).RegisterWithReferralCode`: `SELECT
user_id FROM referral_codes WHERE code = $1 AND expires_at > NOW()`.  One
query filters on existence and expiry together, so an absent code and a
present-but-lapsed code both surface as the same `pgx.ErrNoRows`. -/
def resolveReferralCode (db : Store) (code : String) (now : Int) : Except DBError Nat :=
  match db.codes.find? (fun rc => rc.code == code && now < rc.expiresAt) with
  | some rc => .ok rc.userID
  | none => .error .noRows

/-- Embeds `(*DB).RegisterWithReferralCode`: resolve the code (returning
its error verbatim on failure), then `CreateUser` with the user exactly as
supplied, then `_, err = Exec(INSERT INTO referral_links (referrer_id,
referee_id) ...); return err`.  The three statements commit independently —
there is no transaction.  Each statement can also be aborted by the
caller-supplied context; an abort of the first statement (a read) or the
second (its insert then commits nothing) leaves the store as it was, so
only the transport outcome of the final `Exec` is distinguishable in the
resulting store and it alone is made explicit: `linkExecFails = true`
injects that failure AFTER the `CreateUser` insert has committed, and the
committed account remains, link-less. -/
def RegisterWithReferralCodeRun (db : Store) (referralCode : String) (user : User) (now : Int)
    (linkExecFails : Bool) : Option DBError × Store :=
  match resolveReferralCode db referralCode now with
  | .error e => (some e, db)
  | .ok referrerID =>
    match CreateUser db user with
    | .error e => (some e, db)
    | .ok (userID, db1) =>
      if linkExecFails then (some .contextDeadlineExceeded, db1)
      else
        (none,
          { db1 with
            links := db1.links ++ [⟨db1.nextLinkID, referrerID, userID⟩]
            nextLinkID := db1.nextLinkID + 1 })

/-- The run of `(*DB).RegisterWithReferralCode` in which every statement's
transport succeeds, so the only failures are the data-dependent ones: the
`linkExecFails = false` case of `RegisterWithReferralCodeRun`. -/
def RegisterWithReferralCode (db : Store) (referralCode : String) (user : User) (now : Int) :
    Option DBError × Store :=
  RegisterWithReferralCodeRun db referralCode user now false

/-! ### HTTP handlers (`pkg/api/api.go`, `pkg/auth/auth.go`) -/

/-- Observable outcome of a login request, after JSON decoding (the decoded
payload is the handler's input here, so the bad-request branch does not
arise): HTTP 401 with a message, or HTTP 200 with the issued token. -/
inductive LoginResponse where
  | unauthorized (message : String)
  | okToken (token : Token)
deriving DecidableEq, Repr

/-- Embeds `(*API).loginUser` (api.go): look the account up by email —
failure writes `err.Error()` with status 401; then `CheckPasswordHash` —
failure writes the fixed message `"Неверный логин или пароль"` with status
401; then `GenerateToken` and a 200 response carrying the token.  The
goroutine/channel pair shuttles exactly one result and is modelled as the
direct call. -/
def loginUser (db : Store) (secret : String) (user : User) (now : Int) : LoginResponse :=
  match GetUserByEmail db user.email with
  | .error err => .unauthorized err.message
  | .ok existingUser =>
    match CheckPasswordHash user.password existingUser.password with
    | .ok => .okToken (GenerateToken secret now existingUser.id existingUser.username)
    | _ => .unauthorized "Неверный логин или пароль"

/-- Embeds `LoginHandler` (auth.go): identical control flow to `loginUser`,
except that the email-lookup failure branch writes the same fixed message
`"Неверный логин или пароль"` as the password-check failure branch. -/
def LoginHandler (db : Store) (secret : String) (user : User) (now : Int) : LoginResponse :=
  match GetUserByEmail db user.email with
  | .error _ => .unauthorized "Неверный логин или пароль"
  | .ok existingUser =>
    match CheckPasswordHash user.password existingUser.password with
    | .ok => .okToken (GenerateToken secret now existingUser.id existingUser.username)
    | _ => .unauthorized "Неверный логин или пароль"

/-- The decoded payload of `POST /register-with-referral`. -/
structure ReferralRegisterRequest where
  referralCode : String
  user : User
deriving DecidableEq, Repr

/-- An HTTP status/body pair as written by the api.go handlers. -/
structure HttpResponse where
  status : Nat
  body : String
deriving DecidableEq, Repr

/-- Embeds `(*API).registerWithReferralCode` (api.go): the decoded request
is passed straight to the store's `RegisterWithReferralCode` — the supplied
password is never run through `HashPassword` on this path — and the handler
answers 201 Created on success or 500 with `err.Error()` on failure. -/
def registerWithReferralCode (db : Store) (req : ReferralRegisterRequest) (now : Int) :
    HttpResponse × Store :=
  match RegisterWithReferralCode db req.referralCode req.user now with
  | (some e, db1) => (⟨500, e.message⟩, db1)
  | (none, db1) => (⟨201, ""⟩, db1)

/-! ### Concrete states used to exercise the embedding -/

/-- A user as the decoded registration payload supplies it: zero id,
plaintext password. -/
def demoBob : User :=
  { username := "bob", email := "b@x", password := "pw1" }

/-- A small database: one account (alice, with a properly hashed password),
her active referral code `REF1` (expires at 1000), and an expired code
`OLD` of another owner (expires at 50). -/
def demoStore : Store :=
  { users := [{ id := 1, username := "alice", email := "a@x", password := HashPassword 3 "pw1" }]
    codes := [⟨1, 1, "REF1", 1000⟩, ⟨2, 7, "OLD", 50⟩]
    links := []
    nextUserID := 2
    nextCodeID := 3
    nextLinkID := 1 }

/-- The payload of a referral registration for bob using alice's code. -/
def demoReq : ReferralRegisterRequest := ⟨"REF1", demoBob⟩

/-- The list of an owner's referral-code rows. -/
def ownerCodes (db : Store) (userID : Nat) : List ReferralCode :=
  db.codes.filter (fun rc => rc.userID == userID)

/-- The spec's §3 invariant: at most one referral code per owning account. -/
abbrev AtMostOneCodePerOwner (db : Store) : Prop :=
  ∀ c1 ∈ db.codes, ∀ c2 ∈ db.codes, c1.userID = c2.userID → c1 = c2

/-- Global uniqueness of the code string (the unique constraint of
schema.sql), as a property of a store state. -/
abbrev GlobalCodeUnique (db : Store) : Prop :=
  ∀ c1 ∈ db.codes, ∀ c2 ∈ db.codes, c1.code = c2.code → c1 = c2

/-! ### Helper lemmas -/

theorem takeWhile_salt_run (s : Nat) (l : List Char) :
    (List.replicate s 'A' ++ '$' :: l).takeWhile (· == 'A') = List.replicate s 'A' := by
  induction s with
  | zero => simp [List.takeWhile_cons]
  | succ n ih => simp [List.replicate_succ, List.takeWhile_cons, ih]

theorem dropWhile_salt_run (s : Nat) (l : List Char) :
    (List.replicate s 'A' ++ '$' :: l).dropWhile (· == 'A') = '$' :: l := by
  induction s with
  | zero => simp [List.dropWhile_cons]
  | succ n ih => simp [List.replicate_succ, List.dropWhile_cons, ih]

/-- Decoding a freshly produced digest recovers its salt and body. -/
theorem parseDigest_hashPassword (salt : Nat) (password : String) :
    parseDigest (HashPassword salt password) = some (salt, password) := by
  simp [parseDigest, HashPassword, takeWhile_salt_run, dropWhile_salt_run]

/-- Claim C8: for every plaintext, verifying that plaintext against its own
hash succeeds, and for every pair of distinct plaintexts, verifying one
against the hash of the other fails with a negative result (`mismatch`)
rather than an error (`malformed`). -/
theorem checkPasswordHash_hashPassword_correct (salt : Nat) (p q : String) (hne : p ≠ q) :
    CheckPasswordHash p (HashPassword salt p) = .ok ∧
    CheckPasswordHash p (HashPassword salt q) = .mismatch := by
  constructor
  · simp [CheckPasswordHash, parseDigest_hashPassword]
  · simp [CheckPasswordHash, parseDigest_hashPassword, hne]

/-- Witness for C8 at salt 0, plaintexts "pw1" and "other". -/
theorem checkPasswordHash_hashPassword_correct_w :
    CheckPasswordHash "pw1" (HashPassword 0 "pw1") = .ok ∧
    CheckPasswordHash "pw1" (HashPassword 0 "other") = .mismatch :=
  checkPasswordHash_hashPassword_correct 0 "pw1" "other" (by decide)

/-- Claim C9: two hashing calls with distinct salts (the per-call random
salt made explicit) produce different digest strings, and each digest
verifies against the common plaintext. -/
theorem hashPassword_salted_digests_differ (s1 s2 : Nat) (p : String) (hs : s1 ≠ s2) :
    HashPassword s1 p ≠ HashPassword s2 p ∧
    CheckPasswordHash p (HashPassword s1 p) = .ok ∧
    CheckPasswordHash p (HashPassword s2 p) = .ok := by
  refine ⟨fun h => hs ?_, ?_, ?_⟩
  · have h1 := (parseDigest_hashPassword s1 p).symm.trans
      (h ▸ parseDigest_hashPassword s2 p)
    simpa using h1
  · simp [CheckPasswordHash, parseDigest_hashPassword]
  · simp [CheckPasswordHash, parseDigest_hashPassword]

/-- Witness for C9 at salts 0 and 1, plaintext "pw1". -/
theorem hashPassword_salted_digests_differ_w :
    HashPassword 0 "pw1" ≠ HashPassword 1 "pw1" ∧
    CheckPasswordHash "pw1" (HashPassword 0 "pw1") = .ok ∧
    CheckPasswordHash "pw1" (HashPassword 1 "pw1") = .ok :=
  hashPassword_salted_digests_differ 0 1 "pw1" (by decide)

/-- Claim C7: issuing a token and immediately validating it under the same
signing secret succeeds and returns exactly the username that was issued,
for every account id, username, secret and instant. -/
theorem generateToken_validateToken_roundtrip (secret : String) (now : Int) (uid : Nat)
    (name : String) :
    ValidateToken secret (GenerateToken secret now uid name) now = .ok name := by
  simp [ValidateToken, GenerateToken, hmacSign, show ¬(now + 24 * 3600 < now) by omega]

/-- Counterexample to C6: a token whose embedded expiry EQUALS the
validation instant is accepted (the check in jwt.go is
`claims.ExpiresAt < time.Now().Unix()`, a strict comparison the other way),
so "expiry equals or precedes the instant implies failure" is false. -/
theorem validateToken_accepts_expiry_equal_now :
    (GenerateToken "k" 0 1 "alice").claims.expiresAt = (86400 : Int) ∧
    ValidateToken "k" (GenerateToken "k" 0 1 "alice") 86400 = .ok "alice" :=
  ⟨rfl, rfl⟩

/-- Claim C6 as amended: validation checks the signing method and the
signature first — a wrong signature is reported as such regardless of
expiry — and then accepts exactly when `now ≤ expiresAt`, failing with the
expiry-class error exactly when the embedded expiry strictly precedes the
validation instant. -/
theorem validateToken_signature_then_expiry (secret : String) (tok : Token) (now : Int)
    (halg : tok.alg = .HS256) :
    (tok.sig ≠ hmacSign secret tok.alg tok.claims →
        ValidateToken secret tok now = .error .invalidSignature) ∧
    (tok.sig = hmacSign secret tok.alg tok.claims →
        (tok.claims.expiresAt < now → ValidateToken secret tok now = .error .expired) ∧
        (now ≤ tok.claims.expiresAt → ValidateToken secret tok now = .ok tok.claims.username)) := by
  refine ⟨fun hsig => ?_, fun hsig => ⟨fun hexp => ?_, fun hexp => ?_⟩⟩
  · simp [ValidateToken, halg, hsig]
    intro h
    exact absurd (halg ▸ h) hsig
  · simp [ValidateToken, halg, halg ▸ hsig, hexp]
  · simp [ValidateToken, halg, halg ▸ hsig, show ¬(tok.claims.expiresAt < now) by omega]

/-- Witness for the amended C6: a concrete well-signed token is rejected
with the expiry error one second past its expiry. -/
theorem validateToken_signature_then_expiry_w :
    ValidateToken "k" (GenerateToken "k" 0 1 "alice") 86401 = .error .expired :=
  ((validateToken_signature_then_expiry "k" (GenerateToken "k" 0 1 "alice") 86401 rfl).2
    rfl).1 (by decide)

/-- Claim C1 (code bug): a referral registration with a valid code persists
the supplied password VERBATIM.  At the failing input — bob registering
with alice's valid code `REF1` and plaintext password `"pw1"` — the
operation reports 201 Created, yet the stored account's password column is
the plaintext `"pw1"`, which no call to `HashPassword` can produce (every
digest starts with a `$`): the `registerWithReferralCode` handler never
invokes the credential hasher on this path. -/
theorem referral_registration_stores_plaintext_password :
    ((registerWithReferralCode demoStore demoReq 10).2.users.filter
        (fun u => u.email == "b@x")).map (fun u => u.password) = ["pw1"] ∧
    demoReq.user.password = "pw1" ∧
    (registerWithReferralCode demoStore demoReq 10).1.status = 201 ∧
    (∀ salt, HashPassword salt "pw1" ≠ "pw1") := by
  refine ⟨rfl, rfl, rfl, fun salt h => ?_⟩
  have h1 : (HashPassword salt "pw1").data.head? = some '$' := rfl
  rw [h] at h1
  exact absurd h1 (by decide)

/-- Claim C5 (code bug): the wired login handler `loginUser` (api.go) does
not produce identical failure outcomes: an email-lookup failure echoes the
store driver's error text (`err.Error()`), while a wrong password produces
the fixed invalid-credentials message — two distinguishable 401 responses.
Only the unwired `LoginHandler` (auth.go) collapses both branches to the
same message, as this evaluation also records. -/
theorem loginUser_branch_messages_differ :
    loginUser demoStore "secret" { email := "nosuch@x", password := "pw1" } 0
      = .unauthorized DBError.noRows.message ∧
    loginUser demoStore "secret" { email := "a@x", password := "wrong" } 0
      = .unauthorized "Неверный логин или пароль" ∧
    DBError.noRows.message ≠ "Неверный логин или пароль" ∧
    LoginHandler demoStore "secret" { email := "nosuch@x", password := "pw1" } 0
      = .unauthorized "Неверный логин или пароль" ∧
    LoginHandler demoStore "secret" { email := "a@x", password := "wrong" } 0
      = .unauthorized "Неверный логин или пароль" :=
  ⟨rfl, rfl, by decide, rfl, rfl⟩

/-- Counterexample to C4: in `demoStore` the code `OLD` exists but is
lapsed at instant 100 while `GONE` has never existed, yet resolving either
one yields the very same error value (`pgx.ErrNoRows` from the single
combined query) — the two failure causes are not distinct. -/
theorem resolveReferralCode_collapses_absent_and_expired :
    resolveReferralCode demoStore "OLD" 100 = .error .noRows ∧
    resolveReferralCode demoStore "GONE" 100 = .error .noRows ∧
    demoStore.codes.any (fun rc => rc.code == "OLD") = true ∧
    demoStore.codes.any (fun rc => rc.code == "GONE") = false :=
  ⟨rfl, rfl, rfl, rfl⟩

/-- Claim C4 as amended: resolving a referral code fails with a single
error cause — the lookup query filters on existence and expiry together, so
an absent code and a present-but-lapsed code both surface as the same
`ErrNoRows`; the caller cannot distinguish the two cases. -/
theorem resolveReferralCode_single_failure_cause (db : Store) (code : String) (now : Int)
    (e : DBError) (h : resolveReferralCode db code now = .error e) : e = .noRows := by
  unfold resolveReferralCode at h
  split at h
  · cases h
  · cases h
    rfl

/-- Witness for the amended C4 at a concrete absent code. -/
theorem resolveReferralCode_single_failure_cause_w : DBError.noRows = DBError.noRows :=
  resolveReferralCode_single_failure_cause demoStore "GONE" 100 .noRows rfl

/-- Claim C10: every record returned by `GetReferralsByReferrerID` carries
an empty password field — the referee listing selects only id, username and
email, never the stored password hash. -/
theorem getReferralsByReferrerID_password_empty (db : Store) (referrerID : Nat) (u : User)
    (h : u ∈ GetReferralsByReferrerID db referrerID) : u.password = "" := by
  unfold GetReferralsByReferrerID at h
  simp only [List.mem_flatMap, List.mem_map, List.mem_filter] at h
  obtain ⟨l, -, u0, -, rfl⟩ := h
  rfl

/-- Witness for C10: the referee row produced by bob's referral
registration is listed for alice with an empty password field. -/
theorem getReferralsByReferrerID_password_empty_w :
    ({ id := 2, username := "bob", email := "b@x", password := "" } : User).password = "" :=
  getReferralsByReferrerID_password_empty
    (registerWithReferralCode demoStore demoReq 10).2 1
    { id := 2, username := "bob", email := "b@x", password := "" } (by decide)

/-- Claim C2 (code bug): the three statements of
`RegisterWithReferralCode` commit independently — no transaction — so when
the final link-insert `Exec` fails (the handler's 5-second context expiring
between the second and third statements), the already-committed account
remains with no `ReferralLink`.  At the failing input — bob registering
with alice's valid code `REF1` — the operation reports an error, yet bob's
account exists afterwards and the links table is empty: the exact
account-created-but-no-link state the claim says is never observable.  The
run with all transports succeeding, recorded alongside, does satisfy the
claim's other conjuncts: a failed resolve returns its error with the store
untouched, and a successful run commits both rows. -/
theorem referral_link_insert_failure_leaves_account :
    (RegisterWithReferralCodeRun demoStore "REF1" demoBob 10 true).1
      = some .contextDeadlineExceeded ∧
    ({ demoBob with id := 2 } : User)
      ∈ (RegisterWithReferralCodeRun demoStore "REF1" demoBob 10 true).2.users ∧
    (RegisterWithReferralCodeRun demoStore "REF1" demoBob 10 true).2.links = [] ∧
    RegisterWithReferralCodeRun demoStore "GONE" demoBob 10 false
      = (some .noRows, demoStore) ∧
    (RegisterWithReferralCodeRun demoStore "REF1" demoBob 10 false).1 = none ∧
    ({ demoBob with id := 2 } : User)
      ∈ (RegisterWithReferralCodeRun demoStore "REF1" demoBob 10 false).2.users ∧
    (⟨1, 1, 2⟩ : ReferralLink)
      ∈ (RegisterWithReferralCodeRun demoStore "REF1" demoBob 10 false).2.links :=
  ⟨rfl, by decide, rfl, rfl, rfl, by decide, by decide⟩

theorem atMostOne_of_codes_eq {db st : Store} (h : st.codes = db.codes)
    (hinv : AtMostOneCodePerOwner db) : AtMostOneCodePerOwner st := by
  intro c1 h1 c2 h2
  rw [h] at h1 h2
  exact hinv c1 h1 c2 h2

theorem registerWithReferralCodeRun_codes_eq (db : Store) (rcode : String) (user : User)
    (now : Int) (fails : Bool) :
    (RegisterWithReferralCodeRun db rcode user now fails).2.codes = db.codes := by
  unfold RegisterWithReferralCodeRun
  cases hres : resolveReferralCode db rcode now with
  | error e => rfl
  | ok rid =>
    cases hcu : CreateUser db user with
    | error e => rfl
    | ok p =>
      obtain ⟨uid, db1⟩ := p
      unfold CreateUser at hcu
      split at hcu
      · cases hcu
      · injection hcu with hcu1
        injection hcu1 with h4 h5
        subst h5
        cases fails
        · rfl
        · rfl

theorem registerWithReferralCode_codes_eq (db : Store) (rcode : String) (user : User)
    (now : Int) : (RegisterWithReferralCode db rcode user now).2.codes = db.codes :=
  registerWithReferralCodeRun_codes_eq db rcode user now false

theorem createUser_codes_eq (db : Store) (user : User) (uid : Nat) (st : Store)
    (h : CreateUser db user = .ok (uid, st)) : st.codes = db.codes := by
  unfold CreateUser at h
  split at h
  · cases h
  · injection h with h1
    injection h1 with h2 h3
    subst h3
    rfl

/-- Claim C3: after a successful `CreateReferralCode` the owner holds
exactly the newly inserted code; any previously held code string (other
than the re-issued string itself) no longer resolves, at any instant; and
the at-most-one-code-per-owner invariant is preserved by every store
operation. -/
theorem createReferralCode_single_active_code (db : Store) (uid : Nat) (code : String)
    (expiresAt : Int) (user : User) (rcode : String) (now : Int) :
    (∀ st, CreateReferralCode db uid code expiresAt = (none, st) →
        ownerCodes st uid = [⟨db.nextCodeID, uid, code, expiresAt⟩] ∧
        (GlobalCodeUnique db → ∀ old ∈ db.codes, old.userID = uid → old.code ≠ code →
          ∀ t, resolveReferralCode st old.code t = .error .noRows)) ∧
    (AtMostOneCodePerOwner db →
        AtMostOneCodePerOwner (CreateReferralCode db uid code expiresAt).2 ∧
        AtMostOneCodePerOwner (DeleteReferralCode db uid) ∧
        AtMostOneCodePerOwner (RegisterWithReferralCode db rcode user now).2 ∧
        (∀ uid2 st, CreateUser db user = .ok (uid2, st) → AtMostOneCodePerOwner st)) := by
  have hdelInv : AtMostOneCodePerOwner db → AtMostOneCodePerOwner (DeleteReferralCode db uid) := by
    intro hinv c1 h1 c2 h2 hu
    unfold DeleteReferralCode at h1 h2
    simp only [List.mem_filter] at h1 h2
    exact hinv c1 h1.1 c2 h2.1 hu
  refine ⟨fun st h => ?_, fun hinv => ?_⟩
  · unfold CreateReferralCode at h
    split at h
    · cases h
    · injection h with h1 h2
      subst h2
      constructor
      · unfold ownerCodes DeleteReferralCode
        rw [List.filter_append, List.filter_filter]
        have h0 : db.codes.filter
            (fun a => (a.userID == uid) && (a.userID != uid)) = [] :=
          List.filter_eq_nil_iff.mpr (fun a _ => by simp [bne])
        rw [h0]
        simp
      · intro hglob old hold holduid holdcode t
        have hnone : ((DeleteReferralCode db uid).codes ++
            [(⟨(DeleteReferralCode db uid).nextCodeID, uid, code, expiresAt⟩ : ReferralCode)]).find?
              (fun rc => rc.code == old.code && decide (t < rc.expiresAt)) = none := by
          apply List.find?_eq_none.mpr
          intro rc hrc
          simp only [List.mem_append, List.mem_singleton] at hrc
          simp only [Bool.and_eq_true, beq_iff_eq, decide_eq_true_eq, not_and]
          intro hcode
          rcases hrc with hmem | rfl
          · unfold DeleteReferralCode at hmem
            simp only [List.mem_filter, bne_iff_ne, ne_eq] at hmem
            exact absurd (congrArg ReferralCode.userID (hglob rc hmem.1 old hold hcode))
              (by simpa [holduid] using hmem.2)
          · exact absurd hcode.symm holdcode
        unfold resolveReferralCode
        rw [hnone]
  · refine ⟨?_, hdelInv hinv, atMostOne_of_codes_eq
      (registerWithReferralCode_codes_eq db rcode user now) hinv,
      fun uid2 st hcu => atMostOne_of_codes_eq (createUser_codes_eq db user uid2 st hcu) hinv⟩
    unfold CreateReferralCode
    split
    · exact hdelInv hinv
    · intro c1 h1 c2 h2 hu
      simp only [List.mem_append, List.mem_singleton] at h1 h2
      rcases h1 with h1 | rfl <;> rcases h2 with h2 | h2
      · exact hdelInv hinv c1 h1 c2 h2 hu
      · subst h2
        exact absurd hu (by
          unfold DeleteReferralCode at h1
          simpa using (List.mem_filter.mp h1).2)
      · exact absurd hu.symm (by
          unfold DeleteReferralCode at h2
          simpa using (List.mem_filter.mp h2).2)
      · subst h2
        rfl

/-- Witness for C3 at the concrete store: re-issuing alice's code as `NEW`
leaves her exactly one code, her old string `REF1` no longer resolves, and
the invariants hold of the demo store. -/
theorem createReferralCode_single_active_code_w :
    ownerCodes (CreateReferralCode demoStore 1 "NEW" 2000).2 1 = [⟨3, 1, "NEW", 2000⟩] ∧
    resolveReferralCode (CreateReferralCode demoStore 1 "NEW" 2000).2 "REF1" 10
      = .error .noRows ∧
    AtMostOneCodePerOwner (DeleteReferralCode demoStore 1) := by
  have h := createReferralCode_single_active_code demoStore 1 "NEW" 2000 demoBob "REF1" 10
  have hsucc := h.1 (CreateReferralCode demoStore 1 "NEW" 2000).2 rfl
  refine ⟨hsucc.1, ?_, (h.2 (by decide)).2.1⟩
  exact hsucc.2 (by decide) ⟨1, 1, "REF1", 1000⟩ (by decide) rfl (by decide) 10

end GoRefer
